import Mathlib

/-!
Shallow embedding of the SolFlu epidemic-simulation core
(`src/simulation/sir_model.py`, `src/simulation/transmission.py`,
`src/simulation/mutation.py`) and proofs about its claims.

Modelling conventions:
* Python `float` values are modelled as exact rationals (`ℚ`).
* Python `dict`s (parameters, global stats, the country table) are modelled as
  association lists in insertion order; lookup returns the first match, which
  coincides with `dict` semantics because Python dict keys are unique.
* Exceptions (`KeyError` on a missing country, `ZeroDivisionError` on a zero
  denominator) are modelled by returning `none`: a Python call that raises is a
  call that does not return.
* The single random draw of `np.random.random()` and the per-route-type
  resistance adjustments drawn in `VirusMutation.mutate` are explicit inputs of
  the embedded functions.
* `np.sqrt` appears only in the route-activation test
  `distance <= infection_radius` with `distance = sqrt(dx*dx+dy*dy)` and
  `infection_radius = sqrt(I/N)*0.1`; both sides are square roots of
  non-negative reals there, so the test is embedded as the equivalent squared
  comparison `dx*dx+dy*dy <= (I/N)*0.01`, guarded by `0 <= I/N` (for `I/N < 0`
  NumPy yields `nan` and the comparison is false).  Accordingly the stored
  `infection_radius` field is embedded as its square, `infection_radius_sq`.
-/

/-- Python `d.get(key, default)` on a string-keyed association list. -/
def dictLookup {α : Type} (l : List (String × α)) (k : String) : Option α :=
  match l with
  | [] => none
  | (k', v) :: rest => if k' = k then some v else dictLookup rest k

/-- `d.get(key, default)` with a default value. -/
def getD (l : List (String × ℚ)) (k : String) (d : ℚ) : ℚ :=
  match dictLookup l k with
  | some v => v
  | none => d

/-- Python `d[key] = f(d[key])` on an existing key: rewrite the first entry
whose key matches (a no-op when the key is absent; every use in the embedding
is guarded by a successful lookup, matching the Python code paths). -/
def dictSet {α : Type} (l : List (String × α)) (k : String) (f : α → α) :
    List (String × α) :=
  match l with
  | [] => []
  | (k', v) :: rest => if k' = k then (k', f v) :: rest else (k', v) :: dictSet rest k f

/-- Accumulate `v` onto key `k` of a tally dict, inserting `k ↦ v` at the end
when absent: Python `if k not in d: d[k] = 0.0` followed by `d[k] += v`. -/
def bump (l : List (String × ℚ)) (k : String) (v : ℚ) : List (String × ℚ) :=
  match l with
  | [] => [(k, v)]
  | (k', v') :: rest => if k' = k then (k', v' + v) :: rest else (k', v') :: bump rest k v

/-- `transmission.py` `RouteType`: the closed air/sea/land enumeration. -/
inductive RouteType : Type
  | air
  | sea
  | land
deriving DecidableEq, Repr

/-- `RouteType.value`: the string payload of each enum member. -/
def RouteType.value : RouteType → String
  | .air => "air"
  | .sea => "sea"
  | .land => "land"

/-- `mutation.py` `MutationThresholds` dataclass (all fields carry their
default values at every use site; the code never overrides them). -/
structure MutationThresholds : Type where
  INFECTION_RATE : ℚ := 3/10
  RECOVERY_RATE : ℚ := 1/5
  BASE_MUTATION_CHANCE : ℚ := 1/100
deriving DecidableEq, Repr

/-- The `resistance_factors` dict of `VirusMutation`, which has exactly the
keys `air`/`sea`/`land` throughout its life. -/
structure ResistanceFactors : Type where
  air : ℚ
  sea : ℚ
  land : ℚ
deriving DecidableEq, Repr

/-- One record of `VirusMutation.mutation_history`. -/
structure MutationEvent : Type where
  strain : ℤ
  timestamp : ℚ
  global_infection_rate : ℚ
deriving DecidableEq, Repr

/-- `mutation.py` `VirusMutation` state. -/
structure VirusMutation : Type where
  current_strain : ℤ
  resistance_factors : ResistanceFactors
  mutation_history : List MutationEvent
  thresholds : MutationThresholds
deriving DecidableEq, Repr

/-- `VirusMutation.__init__`. -/
def VirusMutation.init : VirusMutation where
  current_strain := 0
  resistance_factors := { air := 0, sea := 0, land := 0 }
  mutation_history := []
  thresholds := {}

/-- Parameter mappings and global-stats mappings (`Dict[str, float]`). -/
abbrev Params : Type := List (String × ℚ)

/-- `VirusMutation.check_mutation_trigger`; `draw` is the value of the single
`np.random.random()` call. -/
def VirusMutation.check_mutation_trigger (m : VirusMutation)
    (global_stats : Params) (parameters : Params) (draw : ℚ) : Bool :=
  if global_stats = [] ∨ parameters = [] then false
  else
    let infection_rate := getD global_stats "infection_rate" 0
    let recovery_rate := getD parameters "recovery_rate" 1
    let chance0 := m.thresholds.BASE_MUTATION_CHANCE
    let chance1 := if infection_rate > m.thresholds.INFECTION_RATE
      then chance0 * (1 + infection_rate) else chance0
    let chance2 := if recovery_rate > m.thresholds.RECOVERY_RATE
      then chance1 * (1 - recovery_rate * (1/2)) else chance1
    decide (draw < chance2)

/-- `np.clip(x, 0.0, 1.0)`. -/
def clip01 (x : ℚ) : ℚ := min (max x 0) 1

/-- `VirusMutation.mutate`; `adj` gives, per route type, the drawn adjustment
`(np.random.random() - 0.5) * 0.2`. -/
def VirusMutation.mutate (m : VirusMutation) (global_stats : Params)
    (adj : RouteType → ℚ) : VirusMutation where
  current_strain := m.current_strain + 1
  resistance_factors :=
    { air := clip01 (m.resistance_factors.air + adj .air)
      sea := clip01 (m.resistance_factors.sea + adj .sea)
      land := clip01 (m.resistance_factors.land + adj .land) }
  mutation_history := m.mutation_history ++
    [{ strain := m.current_strain + 1
       timestamp := getD global_stats "timestamp" 0
       global_infection_rate := getD global_stats "infection_rate" 0 }]
  thresholds := m.thresholds

/-- The dict returned by `VirusMutation.get_current_state`. -/
structure MutationSnapshot : Type where
  strain : ℤ
  resistance_factors : ResistanceFactors
  mutation_count : ℕ
deriving DecidableEq, Repr

/-- `VirusMutation.get_current_state`. -/
def VirusMutation.get_current_state (m : VirusMutation) : MutationSnapshot where
  strain := m.current_strain
  resistance_factors := m.resistance_factors
  mutation_count := m.mutation_history.length

/-- `VirusMutation.apply_strain_effects`: copy the parameter dict, scaling the
`infection_rate` entry (when present) by `1 + current_strain * 0.05`. -/
def VirusMutation.apply_strain_effects (m : VirusMutation) (parameters : Params) :
    Params :=
  let strain_modifier : ℚ := 1 + (m.current_strain : ℚ) * (1/20)
  parameters.map (fun p =>
    if p.1 = "infection_rate" then (p.1, p.2 * strain_modifier) else p)

/-- Geographic lat/lng point. -/
structure Point : Type where
  lat : ℚ
  lng : ℚ
deriving DecidableEq, Repr

/-- `transmission.py` `TransmissionRoute` state. -/
structure TransmissionRoute : Type where
  source : String
  target : String
  route_type : RouteType
  active : Bool
  intensity : ℚ
  source_point : Point
  target_point : Point
deriving DecidableEq, Repr

/-- `TransmissionRoute.__init__`: inactive, intensity 1, both points at the
lat/lng-zero default. -/
def TransmissionRoute.mk0 (source target : String) (route_type : RouteType) :
    TransmissionRoute where
  source := source
  target := target
  route_type := route_type
  active := false
  intensity := 1
  source_point := { lat := 0, lng := 0 }
  target_point := { lat := 0, lng := 0 }

/-- `TransmissionRoute._base_rates`. -/
def TransmissionRoute.base_rates : RouteType → ℚ
  | .air => 3/10
  | .sea => 1/10
  | .land => 2/10

/-- `TransmissionRoute.calculate_transmission`. -/
def TransmissionRoute.calculate_transmission (r : TransmissionRoute)
    (source_infected target_susceptible : ℚ)
    (resistance_factors : Params) : ℚ :=
  if r.active then
    let base_rate := TransmissionRoute.base_rates r.route_type
    let resistance := getD resistance_factors r.route_type.value 1
    max 0 (base_rate * r.intensity * source_infected * target_susceptible *
      (1 - resistance) / 1000000)
  else 0

/-!
`TransmissionNetwork` keeps the flat route list `routes` and the index
`_route_map : source ↦ list of that source's routes` (the same objects, both in
insertion order, always appended to together).  The embedding keeps only the
flat list; `get_outbound_routes` is the insertion-order filter by source, which
is exactly the contents of the source's `_route_map` bucket.
-/

/-- `TransmissionNetwork.add_route` (appending to the route list). -/
def networkAddRoute (routes : List TransmissionRoute)
    (source target : String) (route_type : RouteType)
    (source_point target_point : Option Point) : List TransmissionRoute :=
  let route := TransmissionRoute.mk0 source target route_type
  let route := match source_point, target_point with
    | some sp, some tp => { route with source_point := sp, target_point := tp }
    | _, _ => route
  routes ++ [route]

/-- `TransmissionNetwork.get_outbound_routes`. -/
def getOutboundRoutes (routes : List TransmissionRoute) (country_id : String) :
    List TransmissionRoute :=
  routes.filter (fun r => r.source = country_id)

/-- `TransmissionNetwork.activate_route`: flip the first route of the source's
outbound bucket whose target matches. -/
def activateRoute (routes : List TransmissionRoute) (source target : String) :
    List TransmissionRoute :=
  match routes with
  | [] => []
  | r :: rest =>
    if r.source = source ∧ r.target = target then { r with active := true } :: rest
    else r :: activateRoute rest source target

/-- `TransmissionNetwork.update_intensities`: set every route's intensity to
the network-wide `transmission_intensity` (default 1.0). -/
def updateIntensities (routes : List TransmissionRoute) (parameters : Params) :
    List TransmissionRoute :=
  let global_intensity := getD parameters "transmission_intensity" 1
  routes.map (fun r => { r with intensity := global_intensity })

/-- Per-country state (`sir_model.py` country dict). -/
structure Country : Type where
  population : ℚ
  susceptible : ℚ
  infected : ℚ
  recovered : ℚ
  resistance : Params
  location : Point
  /-- Square of the stored `infection_radius` (see the header note). -/
  infection_radius_sq : ℚ
deriving DecidableEq, Repr

/-- The model's country table, in insertion order. -/
abbrev Countries : Type := List (String × Country)

/-- The route loop of `TransmissionNetwork.calculate_transmissions`: routes
whose source or target is absent from the supplied table are skipped, the
rest have their flow tallied onto their target. -/
def calculateTransmissionsAux (countries : Countries)
    (resistance_factors : Params) :
    List TransmissionRoute → Params → Params
  | [], acc => acc
  | r :: rest, acc =>
    match dictLookup countries r.source, dictLookup countries r.target with
    | some source_data, some target_data =>
      calculateTransmissionsAux countries resistance_factors rest
        (bump acc r.target
          (r.calculate_transmission source_data.infected target_data.susceptible
            resistance_factors))
    | _, _ => calculateTransmissionsAux countries resistance_factors rest acc

/-- `TransmissionNetwork.calculate_transmissions`. -/
def calculateTransmissions (routes : List TransmissionRoute)
    (countries : Countries) (resistance_factors : Params) : Params :=
  calculateTransmissionsAux countries resistance_factors routes []

/-- `SIRModel._infection_reaches_route`, in squared form (see header note):
`iOverN` is the value `I/N` whose square root, times 0.1, is the stored
infection radius.  For `iOverN < 0` NumPy's `sqrt` yields `nan` and the
`distance <= radius` comparison is false. -/
def infectionReachesRoute (location : Point) (iOverN : ℚ)
    (route : TransmissionRoute) : Bool :=
  let dx := location.lng - route.source_point.lng
  let dy := location.lat - route.source_point.lat
  decide (0 ≤ iOverN) && decide (dx * dx + dy * dy ≤ iOverN * (1/100))

/-- The seeding applied to a newly reached target with fewer than 100
infected: `infected += 100; susceptible -= 100`. -/
def seedCountry (c : Country) : Country :=
  { c with infected := c.infected + 100, susceptible := c.susceptible - 100 }

/-- `SIRModel._check_route_activation`, folded over the source country's
outbound routes in order.  A missing target country is Python's `KeyError`
(the id is still added to the activated set first, but the raised exception
aborts the whole step, hence `none`). -/
def checkRouteActivation (location : Point) (iOverN : ℚ) :
    List TransmissionRoute → Countries → List String →
    Option (Countries × List String)
  | [], countries, activated => some (countries, activated)
  | route :: rest, countries, activated =>
    let route_id := route.source ++ "-" ++ route.target
    if route_id ∈ activated then
      checkRouteActivation location iOverN rest countries activated
    else if infectionReachesRoute location iOverN route then
      match dictLookup countries route.target with
      | none => none
      | some target_country =>
        let countries' := if target_country.infected < 100
          then dictSet countries route.target seedCountry else countries
        checkRouteActivation location iOverN rest countries' (route_id :: activated)
    else
      checkRouteActivation location iOverN rest countries activated

/-- One entry of the `updates` dict built during `SIRModel.update`. -/
structure Upd : Type where
  susceptible : ℚ
  infected : ℚ
  recovered : ℚ
deriving DecidableEq, Repr

/-- The per-country loop of `SIRModel.update` (lines 111-146): iterate the
country table's keys in insertion order; read the country's current (possibly
already seeded) state; a zero population is Python's `ZeroDivisionError`
computing `internal_transmission`; store the infection radius; run the
route-activation check (which may seed other countries in place); record the
floored SIR update.  `self.beta = 0.3` and `self.dt = 0.1` are the constants
set in `SIRModel.__init__` and never reassigned. -/
def updateLoop (routes : List TransmissionRoute)
    (speed_multiplier infection_rate_modifier recovery_rate : ℚ) :
    List String → Countries → List String → List (String × Upd) →
    Option (Countries × List String × List (String × Upd))
  | [], countries, activated, updates => some (countries, activated, updates)
  | country_id :: rest, countries, activated, updates =>
    match dictLookup countries country_id with
    | none => none
    | some cd =>
      if cd.population = 0 then none
      else
        let S := cd.susceptible
        let I := cd.infected
        let R := cd.recovered
        let N := cd.population
        let effective_dt := (1/10) * speed_multiplier
        let effective_beta := (3/10) * infection_rate_modifier
        let internal_transmission := effective_beta * S * I / N
        let iOverN := I / N
        let countries1 := dictSet countries country_id
          (fun c => { c with infection_radius_sq := iOverN * (1/100) })
        match checkRouteActivation cd.location iOverN
            (getOutboundRoutes routes country_id) countries1 activated with
        | none => none
        | some (countries2, activated2) =>
          let dSdt := -internal_transmission
          let dIdt := internal_transmission - recovery_rate * I
          let dRdt := recovery_rate * I
          let upd : Upd :=
            { susceptible := max 0 (S + dSdt * effective_dt)
              infected := max 0 (I + dIdt * effective_dt)
              recovered := max 0 (R + dRdt * effective_dt) }
          updateLoop routes speed_multiplier infection_rate_modifier recovery_rate
            rest countries2 activated2 (updates ++ [(country_id, upd)])

/-- Merging of route transmissions into the `updates` dict (lines 155-158):
for each tallied target present in `updates`, `infected += t` and
`susceptible -= t` (susceptible is not re-floored). -/
def applyTransmissions : List (String × Upd) → Params → List (String × Upd)
  | updates, [] => updates
  | updates, (k, t) :: rest =>
    applyTransmissions
      (dictSet updates k (fun x =>
        { x with infected := x.infected + t, susceptible := x.susceptible - t }))
      rest

/-- Committing one country's update plus the conservation check
(lines 161-177): write the three compartments, then if the drift exceeds 1.0
rescale them by `population / total` (a zero total is Python's
`ZeroDivisionError`). -/
def applyOne (countries : Countries) (country_id : String) (u : Upd) :
    Option Countries :=
  match dictLookup countries country_id with
  | none => none
  | some cd =>
    let cd1 := { cd with
      susceptible := u.susceptible, infected := u.infected, recovered := u.recovered }
    let total := cd1.susceptible + cd1.infected + cd1.recovered
    if |total - cd1.population| > 1 then
      if total = 0 then none
      else
        let scale := cd1.population / total
        some (dictSet countries country_id (fun _ =>
          { cd1 with
            susceptible := cd1.susceptible * scale
            infected := cd1.infected * scale
            recovered := cd1.recovered * scale }))
    else
      some (dictSet countries country_id (fun _ => cd1))

/-- The final commit loop of `SIRModel.update`, over the `updates` dict in
insertion order. -/
def applyUpdates : Countries → List (String × Upd) → Option Countries
  | countries, [] => some countries
  | countries, (country_id, u) :: rest =>
    match applyOne countries country_id u with
    | none => none
    | some countries' => applyUpdates countries' rest

/-- `sir_model.py` `SIRModel` state.  `beta = 0.3`, `gamma = 0.1` and
`dt = 0.1` are constants fixed in `__init__`; `gamma` is never read by
`update` (the recovery rate comes from the parameters). -/
structure SIRModel : Type where
  countries : Countries
  routes : List TransmissionRoute
  activated_routes : List String
  mutation : VirusMutation
deriving DecidableEq, Repr

/-- `SIRModel._calculate_global_stats` (`self.dt = 0.1` is the timestamp). -/
def SIRModel.calculate_global_stats (s : SIRModel) : Params :=
  let total_susceptible := (s.countries.map (fun p => p.2.susceptible)).sum
  let total_infected := (s.countries.map (fun p => p.2.infected)).sum
  let total_recovered := (s.countries.map (fun p => p.2.recovered)).sum
  let total_population := (s.countries.map (fun p => p.2.population)).sum
  [("total_susceptible", total_susceptible),
   ("total_infected", total_infected),
   ("total_recovered", total_recovered),
   ("total_population", total_population),
   ("infection_rate",
     if total_population > 0 then total_infected / total_population else 0),
   ("timestamp", 1/10)]

/-- Lines 101-177 of `SIRModel.update`, after the mutation phase: everything
that depends only on the (possibly strain-scaled) parameters and on the
countries/routes/activated-routes state.  Returns the new countries, the
intensity-updated routes, and the new activated set. -/
def updateCore (countries : Countries) (routes : List TransmissionRoute)
    (activated : List String) (parameters : Params) :
    Option (Countries × List TransmissionRoute × List String) :=
  let speed_multiplier := getD parameters "speed_multiplier" 1
  let infection_rate_modifier := getD parameters "infection_rate" 1
  let recovery_rate := getD parameters "recovery_rate" (1/10)
  let routes1 := updateIntensities routes parameters
  match updateLoop routes1 speed_multiplier infection_rate_modifier recovery_rate
      (countries.map Prod.fst) countries activated [] with
  | none => none
  | some (countries1, activated1, updates) =>
    let route_transmissions := calculateTransmissions routes1 countries1
      [("air", 1/2), ("sea", 1/2), ("land", 1/2)]
    let updates1 := applyTransmissions updates route_transmissions
    match applyUpdates countries1 updates1 with
    | none => none
    | some countries2 => some (countries2, routes1, activated1)

/-- `SIRModel.update`.  `mut_draw` is the `np.random.random()` draw inside
`check_mutation_trigger`; `adj` gives the resistance adjustments drawn when a
mutation fires.  The literal resistance dict passed to
`calculate_transmissions` at line 151 is `{"air": 0.5, "sea": 0.5,
"land": 0.5}` (iterating `RouteType`). -/
def SIRModel.update (s : SIRModel) (parameters : Params) (mut_draw : ℚ)
    (adj : RouteType → ℚ) : Option SIRModel :=
  let global_stats := s.calculate_global_stats
  let trig := s.mutation.check_mutation_trigger global_stats parameters mut_draw
  let mutation1 := if trig then s.mutation.mutate global_stats adj else s.mutation
  let parameters1 := if trig then mutation1.apply_strain_effects parameters
    else parameters
  match updateCore s.countries s.routes s.activated_routes parameters1 with
  | none => none
  | some (countries2, routes1, activated1) =>
    some { countries := countries2, routes := routes1,
           activated_routes := activated1, mutation := mutation1 }

/-- `SIRModel.add_route`: when both endpoints exist, append the route to the
network, activate it, and mark the pair as already-activated.  The country
locations are read into local variables but never stored on the route. -/
def SIRModel.add_route (s : SIRModel) (source target : String)
    (route_type : RouteType) : SIRModel :=
  if (dictLookup s.countries source).isSome ∧ (dictLookup s.countries target).isSome
  then
    let routes1 := networkAddRoute s.routes source target route_type none none
    let routes2 := activateRoute routes1 source target
    { s with routes := routes2,
             activated_routes := (source ++ "-" ++ target) :: s.activated_routes }
  else s

/-- One operation of a simulation run: a full model step, or a direct
mutation event (with its drawn adjustments). -/
inductive SimOp : Type
  | step (parameters : Params) (mut_draw : ℚ) (adj : RouteType → ℚ)
  | mutateOp (global_stats : Params) (adj : RouteType → ℚ)

/-- A sequence of steps and mutation operations applied to a model. -/
def runOps : SIRModel → List SimOp → Option SIRModel
  | s, [] => some s
  | s, SimOp.step parameters mut_draw adj :: rest =>
    match s.update parameters mut_draw adj with
    | none => none
    | some s' => runOps s' rest
  | s, SimOp.mutateOp global_stats adj :: rest =>
    runOps { s with mutation := s.mutation.mutate global_stats adj } rest

/-! Auxiliary predicates used by the lemmas below. -/

/-- The post-step conservation bound of the spec. -/
def conservedWithin (c : Country) : Prop :=
  |c.susceptible + c.infected + c.recovered - c.population| ≤ 1

/-- All populations positive, phrased through lookup. -/
def popPosL (cs : Countries) : Prop :=
  ∀ k c, dictLookup cs k = some c → 0 < c.population

/-- Componentwise non-negativity of a pending update. -/
def updNonneg (u : Upd) : Prop :=
  0 ≤ u.susceptible ∧ 0 ≤ u.infected ∧ 0 ≤ u.recovered

/-- What survives merging route inflow: non-negative infected and recovered,
and a non-negative compartment sum. -/
def updOK (u : Upd) : Prop :=
  0 ≤ u.infected ∧ 0 ≤ u.recovered ∧
    0 ≤ u.susceptible + u.infected + u.recovered

/-- Spec-side mutation chance of claim C5: base 0.01, scaled by
`1 + infection_rate` exactly when `infection_rate > 0.3` and by
`1 - recovery_rate * 0.5` exactly when `recovery_rate > 0.2`. -/
def mutationChanceSpec (infection_rate recovery_rate : ℚ) : ℚ :=
  ((1/100) * (if infection_rate > 3/10 then 1 + infection_rate else 1)) *
    (if recovery_rate > 1/5 then 1 - recovery_rate * (1/2) else 1)

/-- Replace every country's (unused) per-country resistance mapping. -/
def setResistance (cs : Countries) (g : String → Params) : Countries :=
  cs.map (fun p => (p.1, { p.2 with resistance := g p.1 }))

/-! ### Concrete states used by witnesses and counterexamples -/

/-- A country literal with the default resistance/location bookkeeping. -/
def countryW (population susceptible infected recovered : ℚ) : Country where
  population := population
  susceptible := susceptible
  infected := infected
  recovered := recovered
  resistance := []
  location := { lat := 0, lng := 0 }
  infection_radius_sq := 0

/-- Two-country model used by the C10 witness. -/
def modelC10 : SIRModel where
  countries := [("A", countryW 10 9 1 0), ("B", countryW 10 10 0 0)]
  routes := []
  activated_routes := []
  mutation := .init

/-- One-country model used by the C8 witness. -/
def modelC8 : SIRModel where
  countries := [("X", countryW 10 9 1 0)]
  routes := []
  activated_routes := []
  mutation := .init

/-- The operation list of the C8 witness: one direct mutation event, then one
full (non-mutating: empty parameters) step. -/
def opsC8 : List SimOp :=
  [SimOp.mutateOp [("infection_rate", 1), ("timestamp", 1/10)] (fun _ => 1/20),
   SimOp.step [] 0 (fun _ => 0)]

/-- The state after running `opsC8` on `modelC8`. -/
def modelC8' : SIRModel := (runOps modelC8 opsC8).getD modelC8

/-- One-country model with a pre-activated route id, used by the C2 witness. -/
def modelC2 : SIRModel where
  countries := [("X", countryW 10 9 1 0)]
  routes := []
  activated_routes := ["A-B"]
  mutation := .init

/-- The state after one step of `modelC2` with empty parameters. -/
def modelC2' : SIRModel := (modelC2.update [] 0 (fun _ => 0)).getD modelC2

/-- One-country model used by the C1 witness. -/
def modelC1 : SIRModel where
  countries := [("X", countryW 1000 900 100 0)]
  routes := []
  activated_routes := []
  mutation := .init

/-- The state after one step of `modelC1` with empty parameters. -/
def modelC1' : SIRModel := (modelC1.update [] 0 (fun _ => 0)).getD modelC1

/-- An active air route from A to B (as `SIRModel.add_route` leaves it). -/
def routeC3 : TransmissionRoute :=
  { TransmissionRoute.mk0 "A" "B" RouteType.air with active := true }

/-- Two-country model used for C3: a heavily infected source A and a small
target B whose susceptible pool is below the incoming route flow. -/
def modelC3 : SIRModel where
  countries := [("A", countryW 10000000 0 10000000 0),
                ("B", countryW 10 1 (9/2) (9/2))]
  routes := [routeC3]
  activated_routes := ["A-B"]
  mutation := .init

/-- The state after one step of `modelC3` with empty parameters. -/
def modelC3' : SIRModel := (modelC3.update [] 0 (fun _ => 0)).getD modelC3

/-! ### Lemmas about the dictionary primitives -/

theorem dictLookup_dictSet_self {α : Type} (l : List (String × α)) (k : String)
    (f : α → α) : dictLookup (dictSet l k f) k = (dictLookup l k).map f := by
  induction l with
  | nil => simp [dictLookup, dictSet]
  | cons p rest ih =>
    obtain ⟨k', v⟩ := p
    by_cases h : k' = k
    · simp [dictLookup, dictSet, h]
    · simp [dictLookup, dictSet, h, ih]

theorem dictLookup_dictSet_ne {α : Type} (l : List (String × α)) (k k' : String)
    (f : α → α) (h : k' ≠ k) :
    dictLookup (dictSet l k f) k' = dictLookup l k' := by
  induction l with
  | nil => simp [dictSet]
  | cons p rest ih =>
    obtain ⟨k0, v⟩ := p
    by_cases h0 : k0 = k
    · subst h0
      simp [dictLookup, dictSet, Ne.symm h]
    · simp only [dictSet, if_neg h0]
      by_cases h1 : k0 = k'
      · simp [dictLookup, h1]
      · simp [dictLookup, h1, ih]

theorem dictSet_keys {α : Type} (l : List (String × α)) (k : String) (f : α → α) :
    (dictSet l k f).map Prod.fst = l.map Prod.fst := by
  induction l with
  | nil => rfl
  | cons p rest ih =>
    obtain ⟨k0, v⟩ := p
    by_cases h : k0 = k <;> simp [dictSet, h, ih]

theorem dictLookup_mem {α : Type} (l : List (String × α)) (k : String) (v : α)
    (h : dictLookup l k = some v) : (k, v) ∈ l := by
  induction l with
  | nil => simp [dictLookup] at h
  | cons p rest ih =>
    obtain ⟨k0, v0⟩ := p
    by_cases h0 : k0 = k
    · subst h0
      simp [dictLookup] at h
      simp [h]
    · simp [dictLookup, h0] at h
      exact List.mem_cons_of_mem _ (ih h)

theorem dictLookup_eq_some_of_mem {α : Type} (l : List (String × α)) (k : String)
    (v : α) (hnd : (l.map Prod.fst).Nodup) (h : (k, v) ∈ l) :
    dictLookup l k = some v := by
  induction l with
  | nil => simp at h
  | cons p rest ih =>
    obtain ⟨k0, v0⟩ := p
    simp only [List.map_cons, List.nodup_cons] at hnd
    rcases List.mem_cons.mp h with h1 | h1
    · obtain ⟨rfl, rfl⟩ := Prod.mk.injEq .. ▸ h1
      simp [dictLookup]
    · have hk : k0 ≠ k := by
        rintro rfl
        exact hnd.1 (List.mem_map.mpr ⟨(k0, v), h1, rfl⟩)
      simp [dictLookup, hk, ih hnd.2 h1]

theorem forall_dictSet {α : Type} (P : α → Prop) (l : List (String × α))
    (k : String) (f : α → α) (hl : ∀ p ∈ l, P p.2) (hf : ∀ v, P v → P (f v)) :
    ∀ p ∈ dictSet l k f, P p.2 := by
  induction l with
  | nil => simp [dictSet]
  | cons p rest ih =>
    obtain ⟨k0, v0⟩ := p
    by_cases h : k0 = k
    · simp only [dictSet, if_pos h]
      rintro q hq
      rcases List.mem_cons.mp hq with h1 | h1
      · subst h1
        exact hf _ (hl _ (List.mem_cons_self _ _))
      · exact hl _ (List.mem_cons_of_mem _ h1)
    · simp only [dictSet, if_neg h]
      rintro q hq
      rcases List.mem_cons.mp hq with h1 | h1
      · subst h1
        exact hl _ (List.mem_cons_self _ _)
      · exact ih (fun p hp => hl _ (List.mem_cons_of_mem _ hp)) _ h1

theorem dictLookup_bump_ne (l : List (String × ℚ)) (k k' : String) (v : ℚ)
    (h : k' ≠ k) : dictLookup (bump l k v) k' = dictLookup l k' := by
  induction l with
  | nil => simp [bump, dictLookup, Ne.symm h]
  | cons p rest ih =>
    obtain ⟨k0, v0⟩ := p
    by_cases h0 : k0 = k
    · subst h0
      simp [bump, dictLookup, Ne.symm h]
    · simp only [bump, if_neg h0]
      by_cases h1 : k0 = k'
      · simp [dictLookup, h1]
      · simp [dictLookup, h1, ih]

theorem forall_bump (l : List (String × ℚ)) (k : String) (v : ℚ)
    (hl : ∀ p ∈ l, 0 ≤ p.2) (hv : 0 ≤ v) : ∀ p ∈ bump l k v, 0 ≤ p.2 := by
  induction l with
  | nil =>
    simp only [bump]
    rintro p hp
    rcases List.mem_cons.mp hp with h1 | h1
    · subst h1; exact hv
    · simp at h1
  | cons p rest ih =>
    obtain ⟨k0, v0⟩ := p
    by_cases h0 : k0 = k
    · simp only [bump, if_pos h0]
      rintro q hq
      rcases List.mem_cons.mp hq with h1 | h1
      · subst h1
        exact add_nonneg (hl _ (List.mem_cons_self _ _)) hv
      · exact hl _ (List.mem_cons_of_mem _ h1)
    · simp only [bump, if_neg h0]
      rintro q hq
      rcases List.mem_cons.mp hq with h1 | h1
      · subst h1
        exact hl _ (List.mem_cons_self _ _)
      · exact ih (fun p hp => hl _ (List.mem_cons_of_mem _ hp)) _ h1

/-! ### Claim C4: no inflow for a country that is never a route target -/

theorem calcTransAux_lookup_none (countries : Countries) (rf : Params)
    (routes : List TransmissionRoute) (c : String)
    (h : ∀ r ∈ routes, r.target ≠ c) :
    ∀ acc, dictLookup acc c = none →
      dictLookup (calculateTransmissionsAux countries rf routes acc) c = none := by
  induction routes with
  | nil =>
    intro acc hacc
    simpa [calculateTransmissionsAux] using hacc
  | cons r rest ih =>
    intro acc hacc
    have hr : r.target ≠ c := h r (List.mem_cons_self _ _)
    have hrest : ∀ r ∈ rest, r.target ≠ c :=
      fun r hmem => h r (List.mem_cons_of_mem _ hmem)
    cases hs : dictLookup countries r.source with
    | none =>
      simpa [calculateTransmissionsAux, hs] using ih hrest acc hacc
    | some sd =>
      cases ht : dictLookup countries r.target with
      | none =>
        simpa [calculateTransmissionsAux, hs, ht] using ih hrest acc hacc
      | some td =>
        have hb : dictLookup (bump acc r.target
            (r.calculate_transmission sd.infected td.susceptible rf)) c = none := by
          rw [dictLookup_bump_ne _ _ _ _ (Ne.symm hr)]
          exact hacc
        simpa [calculateTransmissionsAux, hs, ht] using ih hrest _ hb

/-- C4: `calculate_transmissions` never reports inflow for a country that is
the target of no route (in particular for a pure source country): its key is
absent from the returned tally, i.e. a route from A to B never contributes
inflow to A. -/
theorem claim4_no_inflow_for_pure_source (routes : List TransmissionRoute)
    (countries : Countries) (resistance_factors : Params) (c : String)
    (h : ∀ r ∈ routes, r.target ≠ c) :
    dictLookup (calculateTransmissions routes countries resistance_factors) c = none :=
  calcTransAux_lookup_none countries resistance_factors routes c h [] rfl

/-- Witness for C4 at a concrete input: a single air route from A to B and
country A, which is a source and never a target. -/
theorem claim4_witness :
    (∀ r ∈ [TransmissionRoute.mk0 "A" "B" RouteType.air], r.target ≠ "A") ∧
    dictLookup (calculateTransmissions [TransmissionRoute.mk0 "A" "B" RouteType.air]
      [] []) "A" = none :=
  ⟨by decide, claim4_no_inflow_for_pure_source _ _ _ _ (by decide)⟩

/-! ### Claim C5: the mutation-trigger computation -/

/-- C5: `check_mutation_trigger` returns false when either mapping is empty;
otherwise it fires exactly when the uniform draw is strictly below the chance
0.01, scaled by `1 + infection_rate` exactly when `infection_rate > 0.3` and
by `1 - recovery_rate * 0.5` exactly when `recovery_rate > 0.2` (thresholds as
in the `MutationThresholds` defaults the code always uses). -/
theorem claim5_check_mutation_trigger (m : VirusMutation) (gs ps : Params)
    (draw : ℚ) (hm : m.thresholds = {}) :
    ((gs = [] ∨ ps = []) → m.check_mutation_trigger gs ps draw = false) ∧
    (gs ≠ [] → ps ≠ [] →
      (m.check_mutation_trigger gs ps draw = true ↔
        draw < mutationChanceSpec (getD gs "infection_rate" 0)
          (getD ps "recovery_rate" 1))) := by
  constructor
  · intro h
    simp [VirusMutation.check_mutation_trigger, h]
  · intro hgs hps
    rw [VirusMutation.check_mutation_trigger, if_neg (by simp [hgs, hps]), hm]
    rw [mutationChanceSpec]
    simp only [decide_eq_true_eq]
    split_ifs <;> constructor <;> intro h <;> linarith [h]

/-- Witness for C5: infection rate 0.4, recovery rate 0.1, draw 0. -/
theorem claim5_witness :
    (VirusMutation.init.thresholds = {}) ∧
    ([("infection_rate", (2/5 : ℚ))] ≠ ([] : Params)) ∧
    ([("recovery_rate", (1/10 : ℚ))] ≠ ([] : Params)) ∧
    (VirusMutation.init.check_mutation_trigger [("infection_rate", 2/5)]
        [("recovery_rate", 1/10)] 0 = true ↔
      (0 : ℚ) < mutationChanceSpec (getD [("infection_rate", 2/5)] "infection_rate" 0)
        (getD [("recovery_rate", 1/10)] "recovery_rate" 1)) :=
  ⟨rfl, by decide, by decide,
    (claim5_check_mutation_trigger VirusMutation.init _ _ 0 rfl).2 (by decide) (by decide)⟩

/-! ### Claim C6: the default for an absent recovery_rate -/

/-- Counterexample to C6: with `recovery_rate` absent, `check_mutation_trigger`
behaves like `recovery_rate = 1.0` (its own `get` default), not like the
documented parameter default 0.1: the two disagree at draw 0.007. -/
theorem claim6_counterexample :
    VirusMutation.init.check_mutation_trigger [("infection_rate", 0)]
      [("speed_multiplier", 1)] (7/1000) = false ∧
    VirusMutation.init.check_mutation_trigger [("infection_rate", 0)]
      [("speed_multiplier", 1), ("recovery_rate", 1/10)] (7/1000) = true := by
  constructor <;> with_unfolding_all decide

/-- C6 as amended: on a non-empty parameter mapping without `recovery_rate`,
`check_mutation_trigger` behaves identically to the same mapping with
`recovery_rate = 1.0` (the `parameters.get("recovery_rate", 1.0)` default), so
the recovery-rate reduction is applied, halving the chance. -/
theorem claim6_amended_default_is_one (m : VirusMutation) (gs ps : Params)
    (draw : ℚ) (hne : ps ≠ []) (habs : dictLookup ps "recovery_rate" = none) :
    m.check_mutation_trigger gs ps draw =
      m.check_mutation_trigger gs (("recovery_rate", 1) :: ps) draw := by
  by_cases hgs : gs = []
  · simp [VirusMutation.check_mutation_trigger, hgs]
  · rw [VirusMutation.check_mutation_trigger, if_neg (by simp [hgs, hne]),
      VirusMutation.check_mutation_trigger, if_neg (by simp [hgs])]
    have h1 : getD ps "recovery_rate" 1 = 1 := by simp [getD, habs]
    have h2 : getD (("recovery_rate", 1) :: ps) "recovery_rate" 1 = 1 := by
      simp [getD, dictLookup]
    rw [h1, h2]

/-- Witness for C6 as amended, at a concrete mapping without the key. -/
theorem claim6_witness :
    (([("speed_multiplier", (1 : ℚ))] : Params) ≠ []) ∧
    (dictLookup [("speed_multiplier", (1 : ℚ))] "recovery_rate" = none) ∧
    (VirusMutation.init.check_mutation_trigger [("infection_rate", 0)]
        [("speed_multiplier", 1)] (7/1000) =
      VirusMutation.init.check_mutation_trigger [("infection_rate", 0)]
        (("recovery_rate", 1) :: [("speed_multiplier", 1)]) (7/1000)) :=
  ⟨by decide, by decide,
    claim6_amended_default_is_one VirusMutation.init _ _ _ (by decide) (by decide)⟩

/-! ### Claim C7: apply_strain_effects -/

theorem apply_strain_keys (m : VirusMutation) (ps : Params) :
    (m.apply_strain_effects ps).map Prod.fst = ps.map Prod.fst := by
  rw [VirusMutation.apply_strain_effects, List.map_map]
  apply List.map_congr_left
  rintro ⟨k, v⟩ _
  by_cases h : k = "infection_rate" <;> simp [h]

theorem dictLookup_map_val (g : String → ℚ → ℚ) (l : Params) (k : String) :
    dictLookup (l.map (fun p => (p.1, g p.1 p.2))) k =
      (dictLookup l k).map (g k) := by
  induction l with
  | nil => simp [dictLookup]
  | cons p rest ih =>
    obtain ⟨k0, w⟩ := p
    by_cases h : k0 = k
    · subst h
      simp [dictLookup]
    · simp [dictLookup, h, ih]

theorem apply_strain_eq_map (m : VirusMutation) (ps : Params) :
    m.apply_strain_effects ps = ps.map (fun p => (p.1,
      if p.1 = "infection_rate"
        then p.2 * (1 + (m.current_strain : ℚ) * (1/20)) else p.2)) := by
  rw [VirusMutation.apply_strain_effects]
  apply List.map_congr_left
  rintro ⟨k, v⟩ _
  by_cases h : k = "infection_rate" <;> simp [h]

theorem apply_strain_lookup_infection (m : VirusMutation) (ps : Params) (v : ℚ)
    (h : dictLookup ps "infection_rate" = some v) :
    dictLookup (m.apply_strain_effects ps) "infection_rate" =
      some (v * (1 + (m.current_strain : ℚ) * (1/20))) := by
  rw [apply_strain_eq_map,
    dictLookup_map_val (fun s q => if s = "infection_rate"
      then q * (1 + (m.current_strain : ℚ) * (1/20)) else q) ps "infection_rate", h]
  simp

theorem apply_strain_lookup_other (m : VirusMutation) (ps : Params) (k : String)
    (h : k ≠ "infection_rate") :
    dictLookup (m.apply_strain_effects ps) k = dictLookup ps k := by
  rw [apply_strain_eq_map,
    dictLookup_map_val (fun s q => if s = "infection_rate"
      then q * (1 + (m.current_strain : ℚ) * (1/20)) else q) ps k]
  cases dictLookup ps k <;> simp [h]

theorem apply_strain_absent (m : VirusMutation) (ps : Params)
    (h : dictLookup ps "infection_rate" = none) :
    m.apply_strain_effects ps = ps := by
  induction ps with
  | nil => simp [VirusMutation.apply_strain_effects]
  | cons p rest ih =>
    obtain ⟨k0, w⟩ := p
    by_cases hk : k0 = "infection_rate"
    · simp [dictLookup, hk] at h
    · simp only [dictLookup, if_neg hk] at h
      simpa [VirusMutation.apply_strain_effects, hk] using ih h

/-- C7: `apply_strain_effects` returns a new mapping whose `infection_rate`
entry (when present) is the input value times `1 + 0.05 * current_strain`,
whose every other entry is unchanged, and which has exactly the input's keys;
being a pure function of its argument, it leaves the input mapping itself
untouched (when the key is absent it returns the input unchanged). -/
theorem claim7_apply_strain_effects (m : VirusMutation) (ps : Params) :
    ((m.apply_strain_effects ps).map Prod.fst = ps.map Prod.fst) ∧
    (∀ v, dictLookup ps "infection_rate" = some v →
      dictLookup (m.apply_strain_effects ps) "infection_rate" =
        some (v * (1 + (m.current_strain : ℚ) * (1/20)))) ∧
    (∀ k, k ≠ "infection_rate" →
      dictLookup (m.apply_strain_effects ps) k = dictLookup ps k) ∧
    (dictLookup ps "infection_rate" = none → m.apply_strain_effects ps = ps) :=
  ⟨apply_strain_keys m ps,
   fun v h => apply_strain_lookup_infection m ps v h,
   fun k h => apply_strain_lookup_other m ps k h,
   fun h => apply_strain_absent m ps h⟩

/-- Witness for C7 on strain 2 and the mapping with `infection_rate = 2` and
one other key: the scaled entry, the untouched entry, and the untouched
key list. -/
theorem claim7_witness :
    ((VirusMutation.mk 2 { air := 0, sea := 0, land := 0 } [] {}).apply_strain_effects
        [("infection_rate", 2), ("speed_multiplier", 3)]).map Prod.fst =
      ["infection_rate", "speed_multiplier"] ∧
    dictLookup ((VirusMutation.mk 2 { air := 0, sea := 0, land := 0 } [] {}).apply_strain_effects
        [("infection_rate", 2), ("speed_multiplier", 3)]) "infection_rate" =
      some (11/5) ∧
    dictLookup ((VirusMutation.mk 2 { air := 0, sea := 0, land := 0 } [] {}).apply_strain_effects
        [("infection_rate", 2), ("speed_multiplier", 3)]) "speed_multiplier" =
      some 3 := by
  have h := claim7_apply_strain_effects
    (VirusMutation.mk 2 { air := 0, sea := 0, land := 0 } [] {})
    [("infection_rate", 2), ("speed_multiplier", 3)]
  refine ⟨by simpa using h.1, ?_, ?_⟩
  · have h2 := h.2.1 2 (by with_unfolding_all decide)
    rw [h2]
    norm_num
  · have h3 := h.2.2.1 "speed_multiplier" (by decide)
    rw [h3]
    with_unfolding_all decide

/-! ### Destructuring helpers for the step function -/

theorem updateCore_some_elim (countries : Countries)
    (routes : List TransmissionRoute) (act : List String) (ps : Params)
    (out : Countries × List TransmissionRoute × List String)
    (h : updateCore countries routes act ps = some out) :
    ∃ cs1 act1 upds,
      updateLoop (updateIntensities routes ps) (getD ps "speed_multiplier" 1)
        (getD ps "infection_rate" 1) (getD ps "recovery_rate" (1/10))
        (countries.map Prod.fst) countries act [] = some (cs1, act1, upds) ∧
      ∃ cs2, applyUpdates cs1 (applyTransmissions upds
          (calculateTransmissions (updateIntensities routes ps) cs1
            [("air", 1/2), ("sea", 1/2), ("land", 1/2)])) = some cs2 ∧
        out = (cs2, updateIntensities routes ps, act1) := by
  rw [updateCore] at h
  split at h
  · exact absurd h (by simp)
  · rename_i cs1 act1 upds heq
    dsimp only at h
    split at h
    · exact absurd h (by simp)
    · rename_i cs2 heq2
      exact ⟨cs1, act1, upds, heq, cs2, heq2, (Option.some_inj.mp h).symm⟩

theorem update_some_elim (s : SIRModel) (ps : Params) (d : ℚ)
    (adj : RouteType → ℚ) (s' : SIRModel) (h : s.update ps d adj = some s') :
    ∃ out, updateCore s.countries s.routes s.activated_routes
        (if s.mutation.check_mutation_trigger s.calculate_global_stats ps d
          then (s.mutation.mutate s.calculate_global_stats adj).apply_strain_effects ps
          else ps) = some out ∧
      s' = { countries := out.1, routes := out.2.1, activated_routes := out.2.2,
             mutation := if s.mutation.check_mutation_trigger s.calculate_global_stats ps d
               then s.mutation.mutate s.calculate_global_stats adj
               else s.mutation } := by
  rw [SIRModel.update] at h
  by_cases htrig : s.mutation.check_mutation_trigger s.calculate_global_stats ps d
  · simp only [htrig, if_true] at h ⊢
    split at h
    · exact absurd h (by simp)
    · rename_i cs2 routes1 act1 heq
      exact ⟨(cs2, routes1, act1), heq, (Option.some_inj.mp h).symm⟩
  · simp only [htrig, if_false] at h ⊢
    split at h
    · exact absurd h (by simp)
    · rename_i cs2 routes1 act1 heq
      exact ⟨(cs2, routes1, act1), heq, (Option.some_inj.mp h).symm⟩

/-! ### Claim C10: route points stay at the lat/lng-zero defaults -/

theorem updateIntensities_points (routes : List TransmissionRoute) (ps : Params)
    (P : Point → Point → Prop) (h : ∀ r ∈ routes, P r.source_point r.target_point) :
    ∀ r ∈ updateIntensities routes ps, P r.source_point r.target_point := by
  rintro r hr
  rw [updateIntensities] at hr
  obtain ⟨r0, hr0, rfl⟩ := List.mem_map.mp hr
  exact h r0 hr0

theorem activateRoute_points (routes : List TransmissionRoute) (a b : String)
    (P : Point → Point → Prop) (h : ∀ r ∈ routes, P r.source_point r.target_point) :
    ∀ r ∈ activateRoute routes a b, P r.source_point r.target_point := by
  induction routes with
  | nil => simp [activateRoute]
  | cons r0 rest ih =>
    by_cases hc : r0.source = a ∧ r0.target = b
    · rw [activateRoute, if_pos hc]
      rintro r hr
      rcases List.mem_cons.mp hr with h1 | h1
      · subst h1
        exact h r0 (List.mem_cons_self _ _)
      · exact h _ (List.mem_cons_of_mem _ h1)
    · rw [activateRoute, if_neg hc]
      rintro r hr
      rcases List.mem_cons.mp hr with h1 | h1
      · exact h1 ▸ h r0 (List.mem_cons_self _ _)
      · exact ih (fun r hr => h _ (List.mem_cons_of_mem _ hr)) _ h1

theorem networkAddRoute_none (routes : List TransmissionRoute)
    (a b : String) (ty : RouteType) :
    networkAddRoute routes a b ty none none =
      routes ++ [TransmissionRoute.mk0 a b ty] := rfl

/-- C10: routes created through `SIRModel.add_route` (which never calls
`set_points`) keep the constructor's default `lat/lng = 0` endpoints: the
default points of `TransmissionRoute.__init__`, their preservation by
`add_route` and by every step, and the consequence that the radius-activation
test at a country located at the origin succeeds even with radius 0. -/
theorem claim10_default_route_points :
    ((TransmissionRoute.mk0 "S" "T" RouteType.air).source_point =
        { lat := 0, lng := 0 } ∧
      (TransmissionRoute.mk0 "S" "T" RouteType.air).target_point =
        { lat := 0, lng := 0 }) ∧
    (∀ (s : SIRModel) (a b : String) (ty : RouteType),
      (∀ r ∈ s.routes, r.source_point = { lat := 0, lng := 0 } ∧
        r.target_point = { lat := 0, lng := 0 }) →
      ∀ r ∈ (s.add_route a b ty).routes,
        r.source_point = { lat := 0, lng := 0 } ∧
        r.target_point = { lat := 0, lng := 0 }) ∧
    (∀ (s : SIRModel) (ps : Params) (d : ℚ) (adj : RouteType → ℚ) (s' : SIRModel),
      s.update ps d adj = some s' →
      (∀ r ∈ s.routes, r.source_point = { lat := 0, lng := 0 } ∧
        r.target_point = { lat := 0, lng := 0 }) →
      ∀ r ∈ s'.routes,
        r.source_point = { lat := 0, lng := 0 } ∧
        r.target_point = { lat := 0, lng := 0 }) ∧
    (∀ r : TransmissionRoute, r.source_point = { lat := 0, lng := 0 } →
      infectionReachesRoute { lat := 0, lng := 0 } 0 r = true) := by
  refine ⟨⟨rfl, rfl⟩, ?_, ?_, ?_⟩
  · rintro s a b ty h r hr
    rw [SIRModel.add_route] at hr
    split at hr
    · dsimp only at hr
      refine activateRoute_points (networkAddRoute s.routes a b ty none none) a b
        (fun sp tp => sp = { lat := 0, lng := 0 } ∧ tp = { lat := 0, lng := 0 })
        ?_ r hr
      rintro r0 hr0
      rw [networkAddRoute_none] at hr0
      rcases List.mem_append.mp hr0 with h1 | h1
      · exact h r0 h1
      · rcases List.mem_singleton.mp h1 with rfl
        exact ⟨rfl, rfl⟩
    · exact h r hr
  · rintro s ps d adj s' hupd h
    obtain ⟨out, hcore, rfl⟩ := update_some_elim s ps d adj s' hupd
    obtain ⟨cs1, act1, upds, hloop, cs2, happly, hout⟩ :=
      updateCore_some_elim _ _ _ _ _ hcore
    subst hout
    exact updateIntensities_points s.routes _
      (fun sp tp => sp = { lat := 0, lng := 0 } ∧ tp = { lat := 0, lng := 0 }) h
  · rintro r h
    rw [infectionReachesRoute, h]
    norm_num

/-- Witness for C10's conditional parts at concrete inputs: a model with two
origin-located countries and one explicitly added route, one step of it, and
the radius test on the constructor's route. -/
theorem claim10_witness :
    (∀ r ∈ (modelC10.add_route "A" "B" RouteType.air).routes,
      r.source_point = { lat := 0, lng := 0 } ∧
        r.target_point = { lat := 0, lng := 0 }) ∧
    infectionReachesRoute { lat := 0, lng := 0 } 0
      (TransmissionRoute.mk0 "A" "B" RouteType.air) = true :=
  ⟨claim10_default_route_points.2.1 modelC10 "A" "B" RouteType.air
      (by simp [modelC10]),
   claim10_default_route_points.2.2.2 _ (by with_unfolding_all decide)⟩

/-! ### Claim C8: strain monotonicity and mutation count -/

theorem update_strain_mono (s : SIRModel) (ps : Params) (d : ℚ)
    (adj : RouteType → ℚ) (s' : SIRModel) (h : s.update ps d adj = some s') :
    s.mutation.current_strain ≤ s'.mutation.current_strain := by
  obtain ⟨out, hcore, rfl⟩ := update_some_elim s ps d adj s' h
  by_cases htrig : s.mutation.check_mutation_trigger s.calculate_global_stats ps d
  · simp only [htrig, if_true, VirusMutation.mutate]
    omega
  · simp [htrig]

theorem runOps_strain_mono (ops : List SimOp) :
    ∀ s s' : SIRModel, runOps s ops = some s' →
      s.mutation.current_strain ≤ s'.mutation.current_strain := by
  induction ops with
  | nil =>
    intro s s' h
    rw [runOps] at h
    rw [Option.some_inj.mp h]
  | cons op rest ih =>
    intro s s' h
    cases op with
    | step ps d adj =>
      rw [runOps] at h
      cases hu : s.update ps d adj with
      | none => rw [hu] at h; exact absurd h (by simp)
      | some s1 =>
        rw [hu] at h
        exact le_trans (update_strain_mono s ps d adj s1 hu) (ih s1 s' h)
    | mutateOp gs adj =>
      rw [runOps] at h
      refine le_trans ?_ (ih _ s' h)
      simp only [VirusMutation.mutate]
      omega

/-- C8: the strain number starts at 0, each `mutate` increments it by exactly
one, it never decreases across any sequence of steps and mutation operations,
and the snapshot's `mutation_count` always equals the length of the mutation
history. -/
theorem claim8_strain_monotone :
    (VirusMutation.init.current_strain = 0) ∧
    (∀ (m : VirusMutation) (gs : Params) (adj : RouteType → ℚ),
      (m.mutate gs adj).current_strain = m.current_strain + 1) ∧
    (∀ (s : SIRModel) (ops : List SimOp) (s' : SIRModel),
      runOps s ops = some s' →
      s.mutation.current_strain ≤ s'.mutation.current_strain) ∧
    (∀ m : VirusMutation,
      m.get_current_state.mutation_count = m.mutation_history.length) :=
  ⟨rfl, fun _ _ _ => rfl, fun s ops s' h => runOps_strain_mono ops s s' h,
   fun _ => rfl⟩

theorem option_eq_some_getD {α : Type} (o : Option α) (d : α)
    (h : o.isSome = true) : o = some (o.getD d) := by
  cases o with
  | none => simp at h
  | some v => rfl

/-- Witness for C8's run-level part: a concrete mutation followed by a step. -/
theorem claim8_witness :
    runOps modelC8 opsC8 = some modelC8' ∧
    modelC8.mutation.current_strain ≤ modelC8'.mutation.current_strain :=
  have hs : (runOps modelC8 opsC8).isSome = true := by with_unfolding_all decide
  have h : runOps modelC8 opsC8 = some modelC8' :=
    option_eq_some_getD _ modelC8 hs
  ⟨h, claim8_strain_monotone.2.2.1 modelC8 opsC8 modelC8' h⟩

/-! ### Claim C9: the resistance factors that reach the flow computation -/

theorem dictLookup_map_entry {α : Type} (g : String → α → α)
    (l : List (String × α)) (k : String) :
    dictLookup (l.map (fun p => (p.1, g p.1 p.2))) k =
      (dictLookup l k).map (g k) := by
  induction l with
  | nil => simp [dictLookup]
  | cons p rest ih =>
    obtain ⟨k0, w⟩ := p
    by_cases h : k0 = k
    · subst h
      simp [dictLookup]
    · simp [dictLookup, h, ih]

theorem update_map_core (s : SIRModel) (ps : Params) (d : ℚ)
    (adj : RouteType → ℚ) :
    (s.update ps d adj).map (fun t => (t.countries, t.routes, t.activated_routes)) =
      updateCore s.countries s.routes s.activated_routes
        (if s.mutation.check_mutation_trigger s.calculate_global_stats ps d
          then (s.mutation.mutate s.calculate_global_stats adj).apply_strain_effects ps
          else ps) := by
  rw [SIRModel.update]
  cases htrig : s.mutation.check_mutation_trigger s.calculate_global_stats ps d with
  | true =>
    simp only [htrig, if_true]
    cases h : updateCore s.countries s.routes s.activated_routes
        ((s.mutation.mutate s.calculate_global_stats adj).apply_strain_effects ps) with
    | none => simp [h]
    | some out =>
      obtain ⟨a, b, c⟩ := out
      simp [h]
  | false =>
    simp only [htrig, Bool.false_eq_true, if_false]
    cases h : updateCore s.countries s.routes s.activated_routes ps with
    | none => simp [h]
    | some out =>
      obtain ⟨a, b, c⟩ := out
      simp [h]

theorem calcTransAux_resistance_frame (cs : Countries) (g : String → Params)
    (rf : Params) (routes : List TransmissionRoute) :
    ∀ acc, calculateTransmissionsAux (setResistance cs g) rf routes acc =
      calculateTransmissionsAux cs rf routes acc := by
  have hlook : ∀ k, dictLookup (setResistance cs g) k =
      (dictLookup cs k).map (fun c => { c with resistance := g k }) := by
    intro k
    exact dictLookup_map_entry (fun k c => { c with resistance := g k }) cs k
  induction routes with
  | nil => intro acc; rfl
  | cons r rest ih =>
    intro acc
    cases hs : dictLookup cs r.source with
    | none =>
      rw [calculateTransmissionsAux, calculateTransmissionsAux, hlook, hs]
      exact ih acc
    | some sd =>
      cases ht : dictLookup cs r.target with
      | none =>
        rw [calculateTransmissionsAux, calculateTransmissionsAux,
          hlook, hlook, hs, ht]
        exact ih acc
      | some td =>
        rw [calculateTransmissionsAux, calculateTransmissionsAux,
          hlook, hlook, hs, ht]
        exact ih _

/-- C9: inter-country flow never sees the mutation engine's or the countries'
resistance mappings.  (i) Under the constant resistance dict
`air/sea/land = 0.5` that `SIRModel.update` passes to
`calculate_transmissions` (line 151), an active route's flow is exactly
`base_rate * intensity * source.infected * target.susceptible * 0.5 / 1e6`
floored at 0, and an inactive route's flow is 0.  (ii) Changing the mutation
engine's `resistance_factors` changes nothing in the step's countries, routes
or activated set.  (iii) Changing every country's own `resistance` mapping
changes nothing in `calculate_transmissions`. -/
theorem claim9_resistance_is_constant_half :
    (∀ (r : TransmissionRoute) (src_infected tgt_susceptible : ℚ),
      r.calculate_transmission src_infected tgt_susceptible
          [("air", 1/2), ("sea", 1/2), ("land", 1/2)] =
        if r.active
          then max 0 (TransmissionRoute.base_rates r.route_type * r.intensity *
            src_infected * tgt_susceptible * (1/2) / 1000000)
          else 0) ∧
    (∀ (s : SIRModel) (f : ResistanceFactors) (ps : Params) (d : ℚ)
        (adj : RouteType → ℚ),
      (SIRModel.update
          { s with mutation := { s.mutation with resistance_factors := f } }
          ps d adj).map (fun t => (t.countries, t.routes, t.activated_routes)) =
        (s.update ps d adj).map
          (fun t => (t.countries, t.routes, t.activated_routes))) ∧
    (∀ (routes : List TransmissionRoute) (cs : Countries) (rf : Params)
        (g : String → Params),
      calculateTransmissions routes (setResistance cs g) rf =
        calculateTransmissions routes cs rf) := by
  refine ⟨?_, ?_, ?_⟩
  · rintro r a b
    rw [TransmissionRoute.calculate_transmission]
    cases hr : r.active
    · simp
    · simp only [if_true]
      have : getD [("air", 1/2), ("sea", 1/2), ("land", 1/2)]
          r.route_type.value 1 = 1/2 := by
        cases r.route_type <;> rfl
      rw [this]
      congr 1
      ring
  · rintro s f ps d adj
    rw [update_map_core, update_map_core]
    rfl
  · rintro routes cs rf g
    exact calcTransAux_resistance_frame cs g rf routes []

/-! ### Claim C2: route activation seeds the target once and is permanent -/

theorem checkRA_act_mono (loc : Point) (q : ℚ) (routes : List TransmissionRoute) :
    ∀ cs act cs' act', checkRouteActivation loc q routes cs act = some (cs', act') →
      act ⊆ act' := by
  induction routes with
  | nil =>
    intro cs act cs' act' h
    rw [checkRouteActivation] at h
    obtain ⟨-, h2⟩ := Prod.mk.injEq .. ▸ Option.some_inj.mp h
    exact h2 ▸ List.Subset.refl act
  | cons r rest ih =>
    intro cs act cs' act' h
    rw [checkRouteActivation] at h
    by_cases hmem : (r.source ++ "-" ++ r.target) ∈ act
    · rw [if_pos hmem] at h
      exact ih cs act cs' act' h
    · rw [if_neg hmem] at h
      by_cases hreach : infectionReachesRoute loc q r = true
      · rw [if_pos hreach] at h
        cases hlook : dictLookup cs r.target with
        | none => rw [hlook] at h; exact absurd h (by simp)
        | some tc =>
          rw [hlook] at h
          dsimp only at h
          have hsub := ih _ _ cs' act' h
          exact fun x hx => hsub (List.mem_cons_of_mem _ hx)
      · rw [if_neg hreach] at h
        exact ih cs act cs' act' h

theorem updateLoop_act_mono (routes : List TransmissionRoute)
    (sm im rr : ℚ) (ids : List String) :
    ∀ cs act upds cs' act' upds',
      updateLoop routes sm im rr ids cs act upds = some (cs', act', upds') →
      act ⊆ act' := by
  induction ids with
  | nil =>
    intro cs act upds cs' act' upds' h
    simp only [updateLoop, Option.some_inj, Prod.mk.injEq] at h
    obtain ⟨-, h2, -⟩ := h
    exact h2 ▸ List.Subset.refl act
  | cons cid rest ih =>
    intro cs act upds cs' act' upds' h
    rw [updateLoop] at h
    cases hlook : dictLookup cs cid with
    | none => rw [hlook] at h; exact absurd h (by simp)
    | some cd =>
      rw [hlook] at h
      dsimp only at h
      by_cases hN : cd.population = 0
      · rw [if_pos hN] at h
        exact absurd h (by simp)
      · rw [if_neg hN] at h
        cases hra : checkRouteActivation cd.location (cd.infected / cd.population)
            (getOutboundRoutes routes cid)
            (dictSet cs cid (fun c =>
              { c with infection_radius_sq :=
                  cd.infected / cd.population * (1/100) })) act with
        | none => rw [hra] at h; exact absurd h (by simp)
        | some out =>
          obtain ⟨cs2, act2⟩ := out
          rw [hra] at h
          dsimp only at h
          exact (checkRA_act_mono _ _ _ _ _ _ _ hra).trans
            (ih _ _ _ _ _ _ h)

theorem update_act_mono (s : SIRModel) (ps : Params) (d : ℚ)
    (adj : RouteType → ℚ) (s' : SIRModel) (h : s.update ps d adj = some s') :
    s.activated_routes ⊆ s'.activated_routes := by
  obtain ⟨out, hcore, rfl⟩ := update_some_elim s ps d adj s' h
  obtain ⟨cs1, act1, upds, hloop, cs2, happly, hout⟩ :=
    updateCore_some_elim _ _ _ _ _ hcore
  subst hout
  exact updateLoop_act_mono _ _ _ _ _ _ _ _ _ _ _ hloop

/-- C2: when, during a step, a not-yet-activated outbound route passes the
radius test and the target has fewer than 100 infected at that instant, the
target receives exactly +100 infected / −100 susceptible (no other country is
touched), the route id enters the activated set, and the remaining routes are
processed with the id now marked; a route whose id is already in the set is
skipped without any state change (so the seeding happens exactly once, with
no deactivation or reactivation); and the activated set of a step only ever
grows, so activation is permanent. -/
theorem claim2_route_seeding :
    (∀ (loc : Point) (q : ℚ) (r : TransmissionRoute)
        (rest : List TransmissionRoute) (cs : Countries) (act : List String)
        (tc : Country),
      (r.source ++ "-" ++ r.target) ∉ act →
      infectionReachesRoute loc q r = true →
      dictLookup cs r.target = some tc →
      tc.infected < 100 →
      (checkRouteActivation loc q (r :: rest) cs act =
        checkRouteActivation loc q rest (dictSet cs r.target seedCountry)
          ((r.source ++ "-" ++ r.target) :: act)) ∧
      dictLookup (dictSet cs r.target seedCountry) r.target =
        some { tc with infected := tc.infected + 100,
                       susceptible := tc.susceptible - 100 } ∧
      (∀ k, k ≠ r.target →
        dictLookup (dictSet cs r.target seedCountry) k = dictLookup cs k)) ∧
    (∀ (loc : Point) (q : ℚ) (r : TransmissionRoute)
        (rest : List TransmissionRoute) (cs : Countries) (act : List String),
      (r.source ++ "-" ++ r.target) ∈ act →
      checkRouteActivation loc q (r :: rest) cs act =
        checkRouteActivation loc q rest cs act) ∧
    (∀ (s : SIRModel) (ps : Params) (d : ℚ) (adj : RouteType → ℚ)
        (s' : SIRModel),
      s.update ps d adj = some s' → s.activated_routes ⊆ s'.activated_routes) := by
  refine ⟨?_, ?_, update_act_mono⟩
  · rintro loc q r rest cs act tc hmem hreach hlook hinf
    refine ⟨?_, ?_, ?_⟩
    · rw [checkRouteActivation, if_neg hmem, if_pos hreach, hlook]
      dsimp only
      rw [if_pos hinf]
    · rw [dictLookup_dictSet_self, hlook]
      rfl
    · intro k hk
      exact dictLookup_dictSet_ne cs r.target k seedCountry hk
  · rintro loc q r rest cs act hmem
    rw [checkRouteActivation, if_pos hmem]

/-- Witness for C2 at concrete inputs: the route A→B with the target at 0
infected is seeded and marked; one concrete step only grows the
activated set. -/
theorem claim2_witness :
    (checkRouteActivation { lat := 0, lng := 0 } 1
        [TransmissionRoute.mk0 "A" "B" RouteType.air]
        [("B", countryW 10 10 0 0)] [] =
      checkRouteActivation { lat := 0, lng := 0 } 1 []
        (dictSet [("B", countryW 10 10 0 0)] "B" seedCountry) ["A-B"]) ∧
    (modelC2.update [] 0 (fun _ => 0) = some modelC2' ∧
      modelC2.activated_routes ⊆ modelC2'.activated_routes) :=
  have hs : (modelC2.update [] 0 (fun _ => 0)).isSome = true := by
    with_unfolding_all decide
  have hu : modelC2.update [] 0 (fun _ => 0) = some modelC2' :=
    option_eq_some_getD _ modelC2 hs
  ⟨(claim2_route_seeding.1 { lat := 0, lng := 0 } 1
      (TransmissionRoute.mk0 "A" "B" RouteType.air) []
      [("B", countryW 10 10 0 0)] [] (countryW 10 10 0 0)
      (by decide) (by with_unfolding_all decide) (by with_unfolding_all decide)
      (by with_unfolding_all decide)).1,
   hu, claim2_route_seeding.2.2 modelC2 [] 0 (fun _ => 0) modelC2' hu⟩

/-! ### The commit loop: conservation and sign facts -/

theorem applyOne_some_elim (cs : Countries) (cid : String) (u : Upd)
    (cs' : Countries) (h : applyOne cs cid u = some cs') :
    ∃ cd, dictLookup cs cid = some cd ∧
      ((¬ |u.susceptible + u.infected + u.recovered - cd.population| > 1 ∧
        cs' = dictSet cs cid (fun _ => { cd with
          susceptible := u.susceptible, infected := u.infected,
          recovered := u.recovered })) ∨
       (|u.susceptible + u.infected + u.recovered - cd.population| > 1 ∧
        u.susceptible + u.infected + u.recovered ≠ 0 ∧
        cs' = dictSet cs cid (fun _ => { cd with
          susceptible := u.susceptible *
            (cd.population / (u.susceptible + u.infected + u.recovered)),
          infected := u.infected *
            (cd.population / (u.susceptible + u.infected + u.recovered)),
          recovered := u.recovered *
            (cd.population / (u.susceptible + u.infected + u.recovered)) }))) := by
  rw [applyOne] at h
  cases hlook : dictLookup cs cid with
  | none => rw [hlook] at h; exact absurd h (by simp)
  | some cd =>
    rw [hlook] at h
    dsimp only at h
    refine ⟨cd, rfl, ?_⟩
    by_cases hdrift : |u.susceptible + u.infected + u.recovered - cd.population| > 1
    · rw [if_pos hdrift] at h
      by_cases hz : u.susceptible + u.infected + u.recovered = 0
      · rw [if_pos hz] at h
        exact absurd h (by simp)
      · rw [if_neg hz] at h
        exact Or.inr ⟨hdrift, hz, (Option.some_inj.mp h).symm⟩
    · rw [if_neg hdrift] at h
      exact Or.inl ⟨hdrift, (Option.some_inj.mp h).symm⟩

theorem applyOne_keys (cs : Countries) (cid : String) (u : Upd) (cs' : Countries)
    (h : applyOne cs cid u = some cs') : cs'.map Prod.fst = cs.map Prod.fst := by
  obtain ⟨cd, -, hcase⟩ := applyOne_some_elim cs cid u cs' h
  rcases hcase with ⟨-, rfl⟩ | ⟨-, -, rfl⟩ <;> exact dictSet_keys cs cid _

theorem applyOne_lookup_ne (cs : Countries) (cid : String) (u : Upd)
    (cs' : Countries) (k : String) (h : applyOne cs cid u = some cs')
    (hk : k ≠ cid) : dictLookup cs' k = dictLookup cs k := by
  obtain ⟨cd, -, hcase⟩ := applyOne_some_elim cs cid u cs' h
  rcases hcase with ⟨-, rfl⟩ | ⟨-, -, rfl⟩ <;>
    exact dictLookup_dictSet_ne cs cid k _ hk

theorem applyOne_bound (cs : Countries) (cid : String) (u : Upd)
    (cs' : Countries) (h : applyOne cs cid u = some cs') :
    ∀ c, dictLookup cs' cid = some c → conservedWithin c := by
  obtain ⟨cd, hlook, hcase⟩ := applyOne_some_elim cs cid u cs' h
  rcases hcase with ⟨hdrift, rfl⟩ | ⟨hdrift, hz, rfl⟩ <;>
    rintro c hc <;>
    rw [dictLookup_dictSet_self, hlook] at hc <;>
    obtain rfl := Option.some_inj.mp hc.symm
  · rw [conservedWithin]
    exact le_of_not_lt hdrift
  · rw [conservedWithin]
    have hsum : u.susceptible *
        (cd.population / (u.susceptible + u.infected + u.recovered)) +
      u.infected * (cd.population / (u.susceptible + u.infected + u.recovered)) +
      u.recovered * (cd.population / (u.susceptible + u.infected + u.recovered)) =
        cd.population := by
      field_simp
      ring
    rw [hsum]
    simp

theorem popPosL_dictSet (cs : Countries) (k : String) (f : Country → Country)
    (hf : ∀ c, dictLookup cs k = some c → (f c).population = c.population)
    (h : popPosL cs) : popPosL (dictSet cs k f) := by
  intro k' c hc
  by_cases hk : k' = k
  · subst hk
    rw [dictLookup_dictSet_self] at hc
    cases hl : dictLookup cs k' with
    | none => rw [hl] at hc; exact absurd hc (by simp)
    | some c0 =>
      rw [hl] at hc
      obtain rfl := Option.some_inj.mp hc.symm
      rw [hf c0 hl]
      exact h k' c0 hl
  · rw [dictLookup_dictSet_ne _ _ _ _ hk] at hc
    exact h k' c hc

theorem applyOne_popPos (cs : Countries) (cid : String) (u : Upd)
    (cs' : Countries) (h : applyOne cs cid u = some cs') (hp : popPosL cs) :
    popPosL cs' := by
  obtain ⟨cd, hlook, hcase⟩ := applyOne_some_elim cs cid u cs' h
  rcases hcase with ⟨-, rfl⟩ | ⟨-, -, rfl⟩ <;>
    refine popPosL_dictSet cs cid _ (fun c hc => ?_) hp <;>
    · rw [hlook] at hc
      obtain rfl := Option.some_inj.mp hc
      rfl

theorem applyOne_nonneg (cs : Countries) (cid : String) (u : Upd)
    (cs' : Countries) (h : applyOne cs cid u = some cs') (hp : popPosL cs)
    (hu : updOK u) :
    ∀ c, dictLookup cs' cid = some c → 0 ≤ c.infected ∧ 0 ≤ c.recovered := by
  obtain ⟨cd, hlook, hcase⟩ := applyOne_some_elim cs cid u cs' h
  have hpop : 0 < cd.population := hp cid cd hlook
  rcases hcase with ⟨hdrift, rfl⟩ | ⟨hdrift, hz, rfl⟩ <;>
    rintro c hc <;>
    rw [dictLookup_dictSet_self, hlook] at hc <;>
    obtain rfl := Option.some_inj.mp hc.symm
  · exact ⟨hu.1, hu.2.1⟩
  · have htotal : 0 < u.susceptible + u.infected + u.recovered :=
      lt_of_le_of_ne hu.2.2 (Ne.symm hz)
    have hscale : 0 ≤ cd.population / (u.susceptible + u.infected + u.recovered) :=
      le_of_lt (div_pos hpop htotal)
    exact ⟨mul_nonneg hu.1 hscale, mul_nonneg hu.2.1 hscale⟩

theorem applyUpdates_some_elim (cs : Countries) (cid : String) (u : Upd)
    (rest : List (String × Upd)) (cs' : Countries)
    (h : applyUpdates cs ((cid, u) :: rest) = some cs') :
    ∃ cs1, applyOne cs cid u = some cs1 ∧ applyUpdates cs1 rest = some cs' := by
  rw [applyUpdates] at h
  cases h1 : applyOne cs cid u with
  | none => rw [h1] at h; exact absurd h (by simp)
  | some cs1 =>
    rw [h1] at h
    exact ⟨cs1, rfl, h⟩

theorem applyUpdates_keys (upds : List (String × Upd)) :
    ∀ cs cs', applyUpdates cs upds = some cs' →
      cs'.map Prod.fst = cs.map Prod.fst := by
  induction upds with
  | nil =>
    intro cs cs' h
    rw [applyUpdates] at h
    rw [Option.some_inj.mp h]
  | cons p rest ih =>
    obtain ⟨cid, u⟩ := p
    intro cs cs' h
    obtain ⟨cs1, h1, h2⟩ := applyUpdates_some_elim cs cid u rest cs' h
    rw [ih cs1 cs' h2, applyOne_keys cs cid u cs1 h1]

theorem applyUpdates_lookup_not_mem (upds : List (String × Upd)) :
    ∀ cs cs' k, applyUpdates cs upds = some cs' → k ∉ upds.map Prod.fst →
      dictLookup cs' k = dictLookup cs k := by
  induction upds with
  | nil =>
    intro cs cs' k h _
    rw [applyUpdates] at h
    rw [Option.some_inj.mp h]
  | cons p rest ih =>
    obtain ⟨cid, u⟩ := p
    intro cs cs' k h hk
    obtain ⟨cs1, h1, h2⟩ := applyUpdates_some_elim cs cid u rest cs' h
    have hk1 : k ≠ cid := fun he => hk (by simp [he])
    have hk2 : k ∉ rest.map Prod.fst := fun he => hk (by simp [he])
    rw [ih cs1 cs' k h2 hk2, applyOne_lookup_ne cs cid u cs1 k h1 hk1]

/-- The core induction over the commit loop: a per-entry precondition `Q`, a
state invariant `Inv` preserved by every commit, and a postcondition `P`
established at each committed key. -/
theorem applyUpdates_establishes (P : Country → Prop) (Q : Upd → Prop)
    (Inv : Countries → Prop)
    (hstep : ∀ cs cid u cs', Inv cs → Q u → applyOne cs cid u = some cs' →
      ∀ c, dictLookup cs' cid = some c → P c)
    (hinv : ∀ cs cid u cs', Inv cs → applyOne cs cid u = some cs' → Inv cs')
    (upds : List (String × Upd)) :
    ∀ cs cs', Inv cs → (∀ p ∈ upds, Q p.2) →
      applyUpdates cs upds = some cs' →
      ∀ k ∈ upds.map Prod.fst, ∀ c, dictLookup cs' k = some c → P c := by
  induction upds with
  | nil =>
    intro cs cs' _ _ _ k hk
    exact absurd hk (by simp)
  | cons p rest ih =>
    obtain ⟨cid, u⟩ := p
    intro cs cs' hInv hQ h k hk c hc
    obtain ⟨cs1, h1, h2⟩ := applyUpdates_some_elim cs cid u rest cs' h
    have hInv1 : Inv cs1 := hinv cs cid u cs1 hInv h1
    by_cases hkrest : k ∈ rest.map Prod.fst
    · exact ih cs1 cs' hInv1 (fun p hp => hQ p (List.mem_cons_of_mem _ hp)) h2
        k hkrest c hc
    · have hkcid : k = cid := by
        rcases List.mem_cons.mp (List.map_cons Prod.fst (cid, u) rest ▸ hk)
          with h3 | h3
        · exact h3
        · exact absurd h3 hkrest
      subst hkcid
      rw [applyUpdates_lookup_not_mem rest cs1 cs' k h2 hkrest] at hc
      exact hstep cs k u cs1 hInv (hQ (k, u) (List.mem_cons_self _ _)) h1 c hc

theorem applyUpdates_popPos (upds : List (String × Upd)) :
    ∀ cs cs', popPosL cs → applyUpdates cs upds = some cs' → popPosL cs' := by
  induction upds with
  | nil =>
    intro cs cs' hp h
    rw [applyUpdates] at h
    exact Option.some_inj.mp h ▸ hp
  | cons p rest ih =>
    obtain ⟨cid, u⟩ := p
    intro cs cs' hp h
    obtain ⟨cs1, h1, h2⟩ := applyUpdates_some_elim cs cid u rest cs' h
    exact ih cs1 cs' (applyOne_popPos cs cid u cs1 h1 hp) h2

/-! ### The per-country loop: keys, populations, pending-update facts -/

theorem checkRA_facts (loc : Point) (q : ℚ) (routes : List TransmissionRoute) :
    ∀ cs act cs' act', checkRouteActivation loc q routes cs act = some (cs', act') →
      cs'.map Prod.fst = cs.map Prod.fst ∧ (popPosL cs → popPosL cs') := by
  induction routes with
  | nil =>
    intro cs act cs' act' h
    rw [checkRouteActivation] at h
    simp only [Option.some_inj, Prod.mk.injEq] at h
    obtain ⟨h1, -⟩ := h
    exact ⟨h1 ▸ rfl, fun hp => h1 ▸ hp⟩
  | cons r rest ih =>
    intro cs act cs' act' h
    rw [checkRouteActivation] at h
    by_cases hmem : (r.source ++ "-" ++ r.target) ∈ act
    · rw [if_pos hmem] at h
      exact ih cs act cs' act' h
    · rw [if_neg hmem] at h
      by_cases hreach : infectionReachesRoute loc q r = true
      · rw [if_pos hreach] at h
        cases hlook : dictLookup cs r.target with
        | none => rw [hlook] at h; exact absurd h (by simp)
        | some tc =>
          rw [hlook] at h
          dsimp only at h
          by_cases hinf : tc.infected < 100
          · rw [if_pos hinf] at h
            obtain ⟨hk, hp⟩ := ih _ _ cs' act' h
            refine ⟨hk.trans (dictSet_keys cs r.target seedCountry), fun h0 => ?_⟩
            refine hp (popPosL_dictSet cs r.target seedCountry
              (fun c hc => rfl) h0)
          · rw [if_neg hinf] at h
            exact ih _ _ cs' act' h
      · rw [if_neg hreach] at h
        exact ih cs act cs' act' h

theorem updateLoop_facts (routes : List TransmissionRoute) (sm im rr : ℚ)
    (ids : List String) :
    ∀ cs act upds cs' act' upds',
      updateLoop routes sm im rr ids cs act upds = some (cs', act', upds') →
      cs'.map Prod.fst = cs.map Prod.fst ∧
      upds'.map Prod.fst = upds.map Prod.fst ++ ids ∧
      (∀ p ∈ upds', p ∈ upds ∨ updNonneg p.2) ∧
      (popPosL cs → popPosL cs') := by
  induction ids with
  | nil =>
    intro cs act upds cs' act' upds' h
    simp only [updateLoop, Option.some_inj, Prod.mk.injEq] at h
    obtain ⟨h1, -, h3⟩ := h
    refine ⟨h1 ▸ rfl, by rw [← h3, List.append_nil], fun p hp => Or.inl (h3 ▸ hp),
      fun hp => h1 ▸ hp⟩
  | cons cid rest ih =>
    intro cs act upds cs' act' upds' h
    rw [updateLoop] at h
    cases hlook : dictLookup cs cid with
    | none => rw [hlook] at h; exact absurd h (by simp)
    | some cd =>
      rw [hlook] at h
      dsimp only at h
      by_cases hN : cd.population = 0
      · rw [if_pos hN] at h
        exact absurd h (by simp)
      · rw [if_neg hN] at h
        cases hra : checkRouteActivation cd.location (cd.infected / cd.population)
            (getOutboundRoutes routes cid)
            (dictSet cs cid (fun c =>
              { c with infection_radius_sq :=
                  cd.infected / cd.population * (1/100) })) act with
        | none => rw [hra] at h; exact absurd h (by simp)
        | some out =>
          obtain ⟨cs2, act2⟩ := out
          rw [hra] at h
          dsimp only at h
          obtain ⟨hk, hupds, hentry, hpp⟩ := ih _ _ _ _ _ _ h
          obtain ⟨hk2, hpp2⟩ := checkRA_facts _ _ _ _ _ _ _ hra
          refine ⟨?_, ?_, ?_, ?_⟩
          · rw [hk, hk2, dictSet_keys]
          · rw [hupds]
            simp
          · rintro p hp
            rcases hentry p hp with h1 | h1
            · rcases List.mem_append.mp h1 with h2 | h2
              · exact Or.inl h2
              · rcases List.mem_singleton.mp h2 with rfl
                exact Or.inr ⟨le_max_left 0 _, le_max_left 0 _, le_max_left 0 _⟩
            · exact Or.inr h1
          · intro hp
            refine hpp (hpp2 (popPosL_dictSet cs cid _ (fun c hc => rfl) hp))

/-! ### Route-flow signs and the merge into pending updates -/

theorem calculate_transmission_nonneg (r : TransmissionRoute) (a b : ℚ)
    (rf : Params) : 0 ≤ r.calculate_transmission a b rf := by
  rw [TransmissionRoute.calculate_transmission]
  cases r.active
  · simp
  · simp only [if_true]
    exact le_max_left 0 _

theorem calcTransAux_nonneg (cs : Countries) (rf : Params)
    (routes : List TransmissionRoute) :
    ∀ acc, (∀ p ∈ acc, 0 ≤ p.2) →
      ∀ p ∈ calculateTransmissionsAux cs rf routes acc, 0 ≤ p.2 := by
  induction routes with
  | nil =>
    intro acc hacc
    rw [calculateTransmissionsAux]
    exact hacc
  | cons r rest ih =>
    intro acc hacc
    cases hs : dictLookup cs r.source with
    | none =>
      rw [calculateTransmissionsAux, hs]
      exact ih acc hacc
    | some sd =>
      cases ht : dictLookup cs r.target with
      | none =>
        rw [calculateTransmissionsAux, hs, ht]
        exact ih acc hacc
      | some td =>
        rw [calculateTransmissionsAux, hs, ht]
        exact ih _ (forall_bump acc r.target _ hacc
          (calculate_transmission_nonneg r sd.infected td.susceptible rf))

theorem calculateTransmissions_nonneg (routes : List TransmissionRoute)
    (cs : Countries) (rf : Params) :
    ∀ p ∈ calculateTransmissions routes cs rf, 0 ≤ p.2 :=
  calcTransAux_nonneg cs rf routes [] (by simp)

theorem applyTransmissions_facts (rt : Params) :
    ∀ upds : List (String × Upd),
      (applyTransmissions upds rt).map Prod.fst = upds.map Prod.fst ∧
      ((∀ p ∈ rt, 0 ≤ p.2) → (∀ p ∈ upds, updOK p.2) →
        ∀ p ∈ applyTransmissions upds rt, updOK p.2) := by
  induction rt with
  | nil =>
    intro upds
    exact ⟨rfl, fun _ h => h⟩
  | cons q rest ih =>
    obtain ⟨k, t⟩ := q
    intro upds
    rw [applyTransmissions]
    constructor
    · rw [(ih _).1, dictSet_keys]
    · intro hrt hupds
      refine (ih _).2 (fun p hp => hrt p (List.mem_cons_of_mem _ hp)) ?_
      have ht : 0 ≤ t := hrt (k, t) (List.mem_cons_self _ _)
      refine forall_dictSet updOK upds k _ hupds ?_
      rintro u ⟨h1, h2, h3⟩
      exact ⟨by dsimp only; linarith, h2, by dsimp only; linarith⟩

/-! ### Claim C1: post-step conservation within 1.0 -/

/-- C1: for every model state with positive populations (and the dict-model's
unique keys), whenever `SIRModel.update` returns (exceptions are modelled as
`none`), every country's compartments satisfy
`|susceptible + infected + recovered - population| <= 1`: the rescaling
branch restores exact conservation in exact arithmetic, and sub-threshold
drift is within the bound by definition. -/
theorem claim1_conservation (s : SIRModel) (ps : Params) (d : ℚ)
    (adj : RouteType → ℚ) (s' : SIRModel)
    (hpop : ∀ p ∈ s.countries, 0 < p.2.population)
    (hnd : (s.countries.map Prod.fst).Nodup)
    (h : s.update ps d adj = some s') :
    ∀ p ∈ s'.countries,
      |p.2.susceptible + p.2.infected + p.2.recovered - p.2.population| ≤ 1 := by
  obtain ⟨out, hcore, rfl⟩ := update_some_elim s ps d adj s' h
  obtain ⟨cs1, act1, upds, hloop, cs2, happly, hout⟩ :=
    updateCore_some_elim _ _ _ _ _ hcore
  subst hout
  obtain ⟨hk1, hupdkeys, -, -⟩ := updateLoop_facts _ _ _ _ _ _ _ _ _ _ _ hloop
  rw [List.map_nil, List.nil_append] at hupdkeys
  set rt := calculateTransmissions
    (updateIntensities s.routes
      (if s.mutation.check_mutation_trigger s.calculate_global_stats ps d
        then (s.mutation.mutate s.calculate_global_stats adj).apply_strain_effects ps
        else ps)) cs1 [("air", 1/2), ("sea", 1/2), ("land", 1/2)] with hrt
  have hkeys2 : (applyTransmissions upds rt).map Prod.fst =
      s.countries.map Prod.fst := by
    rw [(applyTransmissions_facts rt upds).1, hupdkeys]
  have hcs2keys : cs2.map Prod.fst = s.countries.map Prod.fst := by
    rw [applyUpdates_keys _ _ _ happly, hk1]
  have hmain := applyUpdates_establishes conservedWithin (fun _ => True)
    (fun _ => True) (fun cs cid u cs' _ _ h1 => applyOne_bound cs cid u cs' h1)
    (fun _ _ _ _ _ _ => trivial) (applyTransmissions upds rt) cs1 cs2 trivial
    (fun _ _ => trivial) happly
  rintro ⟨id, c⟩ hmem
  have hid : id ∈ cs2.map Prod.fst := List.mem_map.mpr ⟨(id, c), hmem, rfl⟩
  have hlook : dictLookup cs2 id = some c :=
    dictLookup_eq_some_of_mem cs2 id c (hcs2keys ▸ hnd) hmem
  exact hmain id (by rw [hkeys2, ← hcs2keys]; exact hid) c hlook

/-- Witness for C1: one concrete step of a one-country model. -/
theorem claim1_witness :
    (∀ p ∈ modelC1.countries, 0 < p.2.population) ∧
    ((modelC1.countries.map Prod.fst).Nodup) ∧
    modelC1.update [] 0 (fun _ => 0) = some modelC1' ∧
    ∀ p ∈ modelC1'.countries,
      |p.2.susceptible + p.2.infected + p.2.recovered - p.2.population| ≤ 1 :=
  have hs : (modelC1.update [] 0 (fun _ => 0)).isSome = true := by
    with_unfolding_all decide
  have hu : modelC1.update [] 0 (fun _ => 0) = some modelC1' :=
    option_eq_some_getD _ modelC1 hs
  ⟨by with_unfolding_all decide, by decide, hu,
   claim1_conservation modelC1 [] 0 (fun _ => 0) modelC1'
     (by with_unfolding_all decide) (by decide) hu⟩

/-! ### Claim C3: post-step compartment signs -/

/-- Counterexample to C3: a state with non-negative compartments and positive
populations for which the step returns with country B's susceptible strictly
negative — route inflow is subtracted after the flooring, and the resulting
drift (zero) never triggers the rescale, so the negative value survives the
step.  (B: pop 10, S 1, I 4.5, R 4.5 receives an inflow of 1.5 from A while
its integrated susceptible is 0.9865.) -/
theorem claim3_counterexample :
    (∀ p ∈ modelC3.countries, 0 ≤ p.2.susceptible ∧ 0 ≤ p.2.infected ∧
      0 ≤ p.2.recovered ∧ 0 < p.2.population) ∧
    ((modelC3.update [] 0 (fun _ => 0)).bind
        (fun t => dictLookup t.countries "B")).any
      (fun c => decide (c.susceptible < 0)) = true := by
  constructor
  · with_unfolding_all decide
  · with_unfolding_all decide

/-- C3 as amended: after every step that returns, every country's `infected`
and `recovered` are non-negative (flooring, non-negative inflow, and a
positive rescale factor preserve them), but `susceptible` may remain negative
after the step when route inflow exceeds the floored susceptible and the
drift stays within 1.0 — the negativity is not limited to the transient
window inside the step. -/
theorem claim3_amended_infected_recovered_nonneg (s : SIRModel) (ps : Params)
    (d : ℚ) (adj : RouteType → ℚ) (s' : SIRModel)
    (hpop : ∀ p ∈ s.countries, 0 < p.2.population)
    (hnd : (s.countries.map Prod.fst).Nodup)
    (h : s.update ps d adj = some s') :
    ∀ p ∈ s'.countries, 0 ≤ p.2.infected ∧ 0 ≤ p.2.recovered := by
  obtain ⟨out, hcore, rfl⟩ := update_some_elim s ps d adj s' h
  obtain ⟨cs1, act1, upds, hloop, cs2, happly, hout⟩ :=
    updateCore_some_elim _ _ _ _ _ hcore
  subst hout
  obtain ⟨hk1, hupdkeys, hentry, hpp⟩ := updateLoop_facts _ _ _ _ _ _ _ _ _ _ _ hloop
  rw [List.map_nil, List.nil_append] at hupdkeys
  have hppL : popPosL s.countries := by
    intro k c hc
    exact hpop (k, c) (dictLookup_mem s.countries k c hc)
  have hpp1 : popPosL cs1 := hpp hppL
  set rt := calculateTransmissions
    (updateIntensities s.routes
      (if s.mutation.check_mutation_trigger s.calculate_global_stats ps d
        then (s.mutation.mutate s.calculate_global_stats adj).apply_strain_effects ps
        else ps)) cs1 [("air", 1/2), ("sea", 1/2), ("land", 1/2)] with hrt
  have hrtnn : ∀ p ∈ rt, 0 ≤ p.2 := by
    rw [hrt]
    exact calculateTransmissions_nonneg _ _ _
  have hupdsOK : ∀ p ∈ upds, updOK p.2 := by
    rintro p hp
    rcases hentry p hp with h1 | h1
    · exact absurd h1 (by simp)
    · obtain ⟨h2, h3, h4⟩ := h1
      exact ⟨h3, h4, by linarith⟩
  have hOK1 : ∀ p ∈ applyTransmissions upds rt, updOK p.2 :=
    (applyTransmissions_facts rt upds).2 hrtnn hupdsOK
  have hkeys2 : (applyTransmissions upds rt).map Prod.fst =
      s.countries.map Prod.fst := by
    rw [(applyTransmissions_facts rt upds).1, hupdkeys]
  have hcs2keys : cs2.map Prod.fst = s.countries.map Prod.fst := by
    rw [applyUpdates_keys _ _ _ happly, hk1]
  have hmain := applyUpdates_establishes
    (fun c => 0 ≤ c.infected ∧ 0 ≤ c.recovered) updOK popPosL
    (fun cs cid u cs' hInv hQ h1 => applyOne_nonneg cs cid u cs' h1 hInv hQ)
    (fun cs cid u cs' hInv h1 => applyOne_popPos cs cid u cs' h1 hInv)
    (applyTransmissions upds rt) cs1 cs2 hpp1 hOK1 happly
  rintro ⟨id, c⟩ hmem
  have hid : id ∈ cs2.map Prod.fst := List.mem_map.mpr ⟨(id, c), hmem, rfl⟩
  have hlook : dictLookup cs2 id = some c :=
    dictLookup_eq_some_of_mem cs2 id c (hcs2keys ▸ hnd) hmem
  exact hmain id (by rw [hkeys2, ← hcs2keys]; exact hid) c hlook

/-- Witness for C3 as amended: the concrete counterexample model itself has
non-negative infected and recovered after its step. -/
theorem claim3_witness :
    (∀ p ∈ modelC3.countries, 0 < p.2.population) ∧
    ((modelC3.countries.map Prod.fst).Nodup) ∧
    modelC3.update [] 0 (fun _ => 0) = some modelC3' ∧
    ∀ p ∈ modelC3'.countries, 0 ≤ p.2.infected ∧ 0 ≤ p.2.recovered :=
  have hs : (modelC3.update [] 0 (fun _ => 0)).isSome = true := by
    with_unfolding_all decide
  have hu : modelC3.update [] 0 (fun _ => 0) = some modelC3' :=
    option_eq_some_getD _ modelC3 hs
  ⟨by with_unfolding_all decide, by decide, hu,
   claim3_amended_infected_recovered_nonneg modelC3 [] 0 (fun _ => 0) modelC3'
     (by with_unfolding_all decide) (by decide) hu⟩
